import Mathlib

/-!
Verification of the listing claim lifecycle of the leftovberlink food-donation
server (server/server.js), as a shallow embedding in Lean.

Times are modelled as integers (JavaScript `Date` values compare by their
millisecond value).  User and listing identifiers are natural numbers
(MongoDB ObjectIds compared via `toString()` equality in the source).
The document store is a list of listings; `findById` is `List.find?` on the
id field and a whole-document save replaces the listing with that id.
-/

/-- Roles of the `User` schema: `enum: ['Donor', 'Receiver', 'Admin']`. -/
inductive Role where
  | Donor
  | Receiver
  | Admin
deriving Repr, DecidableEq

/-- The slice of the `User` document the food routes read:
`req.user._id`, `req.user.name`, `req.user.role`. -/
structure User where
  id : Nat
  name : String
  role : Role
deriving Repr, DecidableEq

/-- An entry of a listing's `claims` array: `{ userId, name }`. -/
structure ClaimEntry where
  userId : Nat
  name : String
deriving Repr, DecidableEq

/-- The `FoodListing` document (schema at server.js:111-128). -/
structure FoodListing where
  id : Nat
  donor : Nat
  donorName : String
  category : String
  description : String
  quantity : String
  location : String
  imageUrl : String
  mfgTime : Int
  expiryTime : Int
  maxClaims : Nat
  claims : List ClaimEntry
deriving Repr, DecidableEq

/-- The persistent store: the collection of food listings. -/
abbrev DB : Type := List FoodListing

/-- Lookup `FoodListing.findById`: the first listing with the given id. -/
def findById (db : DB) (i : Nat) : Option FoodListing :=
  List.find? (fun l => l.id == i) db

/-- Persisting `listing.save()` after mutating a found document: the whole
document replaces the stored one with the same id. -/
def saveListing (db : DB) (updated : FoodListing) : DB :=
  List.map (fun l => if l.id == updated.id then updated else l) db

/-- Duplicate check
`listing.claims.some(claim => claim.userId.toString() === req.user._id.toString())`
(server.js:420). -/
def alreadyClaimed (l : FoodListing) (uid : Nat) : Bool :=
  l.claims.any (fun c => c.userId == uid)

/-- Outcome of the claim route, one constructor per `return` of
`foodRouter.put('/:id/claim')` (server.js:404-440). -/
inductive ClaimResult where
  | notReceiver
  | notFound
  | expired
  | full
  | duplicate
  | allowed (updated : FoodListing)
deriving Repr, DecidableEq

/-- Route `PUT /api/food/:id/claim` (server.js:404-440): role gate, lookup,
then the expired / full / duplicate checks in the source's order; on success
the claim entry is pushed and the listing saved. -/
def claimRoute (db : DB) (u : User) (now : Int) (i : Nat) :
    ClaimResult × DB :=
  if u.role ≠ Role.Receiver then
    (ClaimResult.notReceiver, db)
  else
    match findById db i with
    | none => (ClaimResult.notFound, db)
    | some listing =>
      if listing.expiryTime < now then
        (ClaimResult.expired, db)
      else if listing.claims.length ≥ listing.maxClaims then
        (ClaimResult.full, db)
      else if alreadyClaimed listing u.id then
        (ClaimResult.duplicate, db)
      else
        let updated : FoodListing :=
          { listing with claims := listing.claims ++ [⟨u.id, u.name⟩] }
        (ClaimResult.allowed updated, saveListing db updated)

/-- Default image of the schema: imageUrl defaults to a placeholder URL
(server.js:118). -/
def placeholderImageUrl : String :=
  "https://placehold.co/600x400/a7a7a7/FFF?text=No+Image"

/-- Server origin prepended to locally stored image paths
(server.js:212, with PORT defaulting to 3001). -/
def serverOrigin : String := "http://localhost:3001"

/-- Helper transformImageUrl (server.js:209-215): a truthy imageUrl that
starts with the local uploads path is rewritten to an absolute address;
everything else passes through. -/
def transformImageUrl (l : FoodListing) : FoodListing :=
  if l.imageUrl != "" && l.imageUrl.startsWith "/uploads/" then
    { l with imageUrl := serverOrigin ++ l.imageUrl }
  else l

/-- Availability filter of GET /api/food (server.js:355-358):
expiryTime strictly after now and strictly fewer claims than maxClaims. -/
def isAvailable (now : Int) (l : FoodListing) : Bool :=
  decide (now < l.expiryTime) && decide (l.claims.length < l.maxClaims)

/-- Ordering used by sort on expiryTime ascending (server.js:358). -/
def expiryLE (a b : FoodListing) : Prop := a.expiryTime ≤ b.expiryTime

instance : DecidableRel expiryLE := fun a b => Int.decLe a.expiryTime b.expiryTime

instance : IsTotal FoodListing expiryLE := ⟨fun a b => Int.le_total a.expiryTime b.expiryTime⟩

instance : IsTrans FoodListing expiryLE := ⟨fun _ _ _ hab hbc => le_trans hab hbc⟩

/-- The database query of GET /api/food (server.js:355-358): find the
available listings and sort them by ascending expiry time. -/
def availableListings (db : DB) (now : Int) : List FoodListing :=
  List.insertionSort expiryLE (List.filter (isAvailable now) db)

/-- Route GET /api/food (server.js:353-366): the query result with every
listing's image URL transformed. -/
def getAvailableRoute (db : DB) (now : Int) : List FoodListing :=
  (availableListings db now).map transformImageUrl

/-- Request body of POST /api/food, after multer and parseInt: the id is the
identifier the store assigns to the new document, image is the uploaded
file's name when present. -/
structure CreateRequest where
  id : Nat
  category : Option String
  description : String
  quantity : String
  location : String
  mfgTime : Int
  expiryTime : Int
  maxClaims : Nat
  image : Option String
deriving Repr, DecidableEq

/-- Outcome of POST /api/food, one constructor per response
(server.js:276-309); invalid is the schema-validation failure on save
(maxClaims has min 1 in the schema, server.js:121). -/
inductive CreateResult where
  | notDonor
  | missingFields
  | invalid
  | created (l : FoodListing)
deriving Repr, DecidableEq

/-- The document built by POST /api/food (server.js:290-299): owned by the
requesting donor, claims start empty, image falls back to the placeholder. -/
def newListing (u : User) (r : CreateRequest) : FoodListing :=
  { id := r.id
    donor := u.id
    donorName := u.name
    category := r.category.getD "Other"
    description := r.description
    quantity := r.quantity
    location := r.location
    imageUrl := (r.image.map (fun f => "/uploads/" ++ f)).getD placeholderImageUrl
    mfgTime := r.mfgTime
    expiryTime := r.expiryTime
    maxClaims := r.maxClaims
    claims := [] }

/-- Route POST /api/food (server.js:276-309): Donor-only; required fields
must be present; the new listing starts with an empty claims array and the
placeholder image when no file was uploaded. -/
def createRoute (db : DB) (u : User) (r : CreateRequest) :
    CreateResult × DB :=
  if u.role ≠ Role.Donor then
    (CreateResult.notDonor, db)
  else if r.description = "" ∨ r.quantity = "" ∨ r.location = "" then
    (CreateResult.missingFields, db)
  else if r.maxClaims < 1 then
    (CreateResult.invalid, db)
  else
    (CreateResult.created (newListing u r), db ++ [newListing u r])

/-- Request body of PUT /api/food/:id: every field optional; maxClaims is
none when absent or when parseInt returned NaN (server.js:339); newImage is
the uploaded replacement file when present. -/
structure EditRequest where
  category : Option String
  description : Option String
  quantity : Option String
  location : Option String
  mfgTime : Option Int
  expiryTime : Option Int
  maxClaims : Option Nat
  newImage : Option String
deriving Repr, DecidableEq

/-- Field updates of PUT /api/food/:id (server.js:325-339): each supplied
field overwrites the stored one, absent fields keep the stored value. -/
def applyEdit (l : FoodListing) (r : EditRequest) : FoodListing :=
  { l with
    imageUrl := (r.newImage.map (fun f => "/uploads/" ++ f)).getD l.imageUrl
    category := r.category.getD l.category
    description := r.description.getD l.description
    quantity := r.quantity.getD l.quantity
    location := r.location.getD l.location
    mfgTime := r.mfgTime.getD l.mfgTime
    expiryTime := r.expiryTime.getD l.expiryTime
    maxClaims := r.maxClaims.getD l.maxClaims }

/-- Outcome of PUT /api/food/:id, one constructor per response
(server.js:312-350); invalid is the schema-validation failure on save. -/
inductive EditResult where
  | notFound
  | notOwner
  | invalid
  | ok (updated : FoodListing)
deriving Repr, DecidableEq

/-- Route PUT /api/food/:id (server.js:312-350): lookup, owner check
(donor must equal the requester), field updates, save. -/
def editRoute (db : DB) (u : User) (i : Nat) (r : EditRequest) :
    EditResult × DB :=
  match findById db i with
  | none => (EditResult.notFound, db)
  | some listing =>
    if listing.donor ≠ u.id then
      (EditResult.notOwner, db)
    else if (applyEdit listing r).maxClaims < 1 then
      (EditResult.invalid, db)
    else
      (EditResult.ok (applyEdit listing r), saveListing db (applyEdit listing r))

/-- Outcome of DELETE /api/food/:id, one constructor per response
(server.js:443-462). -/
inductive DeleteResult where
  | notFound
  | notAuthorized
  | removed
deriving Repr, DecidableEq

/-- Route DELETE /api/food/:id (server.js:443-462): lookup, then the
requester must be the owning donor or an Admin; on success the document is
removed via deleteOne. -/
def deleteRoute (db : DB) (u : User) (i : Nat) : DeleteResult × DB :=
  match findById db i with
  | none => (DeleteResult.notFound, db)
  | some listing =>
    if listing.donor ≠ u.id ∧ u.role ≠ Role.Admin then
      (DeleteResult.notAuthorized, db)
    else
      (DeleteResult.removed, List.eraseP (fun l => l.id == i) db)

/-- One listing-mutating request: the operations whose effect on the store
the invariants quantify over. -/
inductive Op where
  | create (u : User) (r : CreateRequest)
  | claim (u : User) (now : Int) (i : Nat)
  | edit (u : User) (i : Nat) (r : EditRequest)
  | remove (u : User) (i : Nat)
deriving Repr, DecidableEq

/-- Effect of one operation on the store (the response is discarded). -/
def stepOp (db : DB) (o : Op) : DB :=
  match o with
  | Op.create u r => (createRoute db u r).2
  | Op.claim u now i => (claimRoute db u now i).2
  | Op.edit u i r => (editRoute db u i r).2
  | Op.remove u i => (deleteRoute db u i).2

/-- Effect of a sequence of operations on the store. -/
def applyOps (db : DB) (ops : List Op) : DB :=
  ops.foldl stepOp db

/-- Capacity invariant: the claim list is no longer than maxClaims. -/
def capOK (l : FoodListing) : Prop := l.claims.length ≤ l.maxClaims

instance (l : FoodListing) : Decidable (capOK l) := Nat.decLe _ _

/-- No-duplicate invariant: distinct entries of the claim list carry
distinct receiver identities. -/
def noDupClaims (l : FoodListing) : Prop :=
  l.claims.Pairwise (fun a b => a.userId ≠ b.userId)

instance (l : FoodListing) : Decidable (noDupClaims l) := by
  unfold noDupClaims
  infer_instance

/-- Operations that never supply a new maxClaims value: every create, claim
and delete, and the edits whose maxClaims field is absent. -/
def keepsMaxClaims : Op → Prop
  | Op.edit _ _ r => r.maxClaims = none
  | _ => True

instance : DecidablePred keepsMaxClaims := fun o =>
  match o with
  | Op.create _ _ => isTrue True.intro
  | Op.claim _ _ _ => isTrue True.intro
  | Op.edit _ _ r => inferInstanceAs (Decidable (r.maxClaims = none))
  | Op.remove _ _ => isTrue True.intro

/-- Concrete listing used in the scenarios: one slot, expires at time 100,
no claims yet. -/
def L1 : FoodListing :=
  { id := 1
    donor := 10
    donorName := "Dana"
    category := "Other"
    description := "bread"
    quantity := "2"
    location := "market"
    imageUrl := placeholderImageUrl
    mfgTime := 0
    expiryTime := 100
    maxClaims := 1
    claims := [] }

/-- L1 after receiver A's successful claim. -/
def L1A : FoodListing := { L1 with claims := [⟨20, "Alice"⟩] }

/-- Receiver A of the scenarios. -/
def userA : User := { id := 20, name := "Alice", role := Role.Receiver }

/-- Receiver B of the scenarios. -/
def userB : User := { id := 21, name := "Bob", role := Role.Receiver }

/-- The donor owning the scenario listings. -/
def donorD : User := { id := 10, name := "Dana", role := Role.Donor }

/-- An administrator who owns no listing. -/
def adminU : User := { id := 99, name := "Root", role := Role.Admin }

/-- Creation request for a two-slot listing expiring at time 100. -/
def reqTwoSlots : CreateRequest :=
  { id := 1
    category := none
    description := "bread"
    quantity := "2"
    location := "market"
    mfgTime := 0
    expiryTime := 100
    maxClaims := 2
    image := none }

/-- Edit request that only lowers maxClaims to 1. -/
def editLowerMax : EditRequest :=
  { category := none
    description := none
    quantity := none
    location := none
    mfgTime := none
    expiryTime := none
    maxClaims := some 1
    newImage := none }

/-- Create a two-slot listing, let receivers A and B claim it. -/
def opsAB : List Op :=
  [Op.create donorD reqTwoSlots, Op.claim userA 50 1, Op.claim userB 50 1]

/-- As opsAB, then the owner lowers maxClaims to 1. -/
def opsLowered : List Op := opsAB ++ [Op.edit donorD 1 editLowerMax]

/-- The two-slot listing after A and B both claimed. -/
def L2AB : FoodListing :=
  { id := 1
    donor := 10
    donorName := "Dana"
    category := "Other"
    description := "bread"
    quantity := "2"
    location := "market"
    imageUrl := placeholderImageUrl
    mfgTime := 0
    expiryTime := 100
    maxClaims := 2
    claims := [⟨20, "Alice"⟩, ⟨21, "Bob"⟩] }

theorem mem_of_findById {db : DB} {i : Nat} {l : FoodListing}
    (h : findById db i = some l) : l ∈ db :=
  List.mem_of_find?_eq_some h

theorem mem_saveListing {db : DB} {upd l : FoodListing}
    (h : l ∈ saveListing db upd) : l = upd ∨ l ∈ db := by
  unfold saveListing at h
  rcases List.mem_map.1 h with ⟨x, hx, hxe⟩
  by_cases hid : (x.id == upd.id) = true
  · rw [if_pos hid] at hxe
    exact Or.inl hxe.symm
  · rw [if_neg hid] at hxe
    exact Or.inr (hxe ▸ hx)

theorem claimRoute_state_cases (db : DB) (u : User) (now : Int) (i : Nat) :
    (claimRoute db u now i).2 = db ∨
    ∃ listing, findById db i = some listing ∧
      listing.claims.length < listing.maxClaims ∧
      alreadyClaimed listing u.id = false ∧
      (claimRoute db u now i).2 =
        saveListing db { listing with claims := listing.claims ++ [⟨u.id, u.name⟩] } := by
  by_cases h1 : u.role ≠ Role.Receiver
  · refine Or.inl ?_
    simp only [claimRoute, if_pos h1]
  · cases hf : findById db i with
    | none =>
      refine Or.inl ?_
      simp only [claimRoute, if_neg h1, hf]
    | some listing =>
      by_cases h2 : listing.expiryTime < now
      · refine Or.inl ?_
        simp only [claimRoute, if_neg h1, hf, if_pos h2]
      · by_cases h3 : listing.claims.length ≥ listing.maxClaims
        · refine Or.inl ?_
          simp only [claimRoute, if_neg h1, hf, if_neg h2, if_pos h3]
        · by_cases h4 : alreadyClaimed listing u.id = true
          · refine Or.inl ?_
            simp only [claimRoute, if_neg h1, hf, if_neg h2, if_neg h3, if_pos h4]
          · refine Or.inr ⟨listing, rfl, Nat.lt_of_not_le h3, by simpa using h4, ?_⟩
            simp only [claimRoute, if_neg h1, hf, if_neg h2, if_neg h3, if_neg h4]

theorem createRoute_state_cases (db : DB) (u : User) (r : CreateRequest) :
    (createRoute db u r).2 = db ∨
    (createRoute db u r).2 = db ++ [newListing u r] := by
  unfold createRoute
  by_cases h1 : u.role ≠ Role.Donor
  · rw [if_pos h1]
    exact Or.inl rfl
  · rw [if_neg h1]
    by_cases h2 : r.description = "" ∨ r.quantity = "" ∨ r.location = ""
    · rw [if_pos h2]
      exact Or.inl rfl
    · rw [if_neg h2]
      by_cases h3 : r.maxClaims < 1
      · rw [if_pos h3]
        exact Or.inl rfl
      · rw [if_neg h3]
        exact Or.inr rfl

theorem editRoute_state_cases (db : DB) (u : User) (i : Nat) (r : EditRequest) :
    (editRoute db u i r).2 = db ∨
    ∃ listing, findById db i = some listing ∧
      (editRoute db u i r).2 = saveListing db (applyEdit listing r) := by
  cases hf : findById db i with
  | none =>
    refine Or.inl ?_
    simp only [editRoute, hf]
  | some listing =>
    by_cases h1 : listing.donor ≠ u.id
    · refine Or.inl ?_
      simp only [editRoute, hf, if_pos h1]
    · by_cases h2 : (applyEdit listing r).maxClaims < 1
      · refine Or.inl ?_
        simp only [editRoute, hf, if_neg h1, if_pos h2]
      · refine Or.inr ⟨listing, rfl, ?_⟩
        simp only [editRoute, hf, if_neg h1, if_neg h2]

theorem deleteRoute_state_cases (db : DB) (u : User) (i : Nat) :
    (deleteRoute db u i).2 = db ∨
    (deleteRoute db u i).2 = List.eraseP (fun l => l.id == i) db := by
  cases hf : findById db i with
  | none =>
    refine Or.inl ?_
    simp only [deleteRoute, hf]
  | some listing =>
    by_cases hc : listing.donor ≠ u.id ∧ u.role ≠ Role.Admin
    · refine Or.inl ?_
      simp only [deleteRoute, hf, if_pos hc]
    · refine Or.inr ?_
      simp only [deleteRoute, hf, if_neg hc]

theorem applyEdit_claims (l : FoodListing) (r : EditRequest) :
    (applyEdit l r).claims = l.claims := rfl

theorem applyEdit_maxClaims_of_none (l : FoodListing) (r : EditRequest)
    (h : r.maxClaims = none) : (applyEdit l r).maxClaims = l.maxClaims := by
  simp [applyEdit, h]

theorem noDupClaims_push {l : FoodListing} {uid : Nat} {nm : String}
    (hl : noDupClaims l) (hnc : alreadyClaimed l uid = false) :
    noDupClaims { l with claims := l.claims ++ [⟨uid, nm⟩] } := by
  unfold noDupClaims at hl ⊢
  unfold alreadyClaimed at hnc
  rw [List.any_eq_false] at hnc
  show (l.claims ++ [(⟨uid, nm⟩ : ClaimEntry)]).Pairwise _
  rw [List.pairwise_append]
  refine ⟨hl, List.pairwise_singleton _ _, ?_⟩
  intro a ha b hb
  rw [List.mem_singleton] at hb
  subst hb
  have := hnc a ha
  simpa using this

theorem capOK_push {l : FoodListing} {uid : Nat} {nm : String}
    (h : l.claims.length < l.maxClaims) :
    capOK { l with claims := l.claims ++ [⟨uid, nm⟩] } := by
  unfold capOK
  show (l.claims ++ [(⟨uid, nm⟩ : ClaimEntry)]).length ≤ l.maxClaims
  rw [List.length_append]
  simpa using h

theorem stepOp_noDup {db : DB} (hdb : ∀ l ∈ db, noDupClaims l) (o : Op) :
    ∀ l ∈ stepOp db o, noDupClaims l := by
  intro l hl
  cases o with
  | create u r =>
    have hl' : l ∈ (createRoute db u r).2 := hl
    rcases createRoute_state_cases db u r with h | h
    · rw [h] at hl'
      exact hdb l hl'
    · rw [h] at hl'
      rcases List.mem_append.1 hl' with h1 | h1
      · exact hdb l h1
      · rw [List.mem_singleton] at h1
        subst h1
        unfold noDupClaims newListing
        exact List.Pairwise.nil
  | claim u now i =>
    have hl' : l ∈ (claimRoute db u now i).2 := hl
    rcases claimRoute_state_cases db u now i with h | ⟨listing, hfind, hlen, hnc, h⟩
    · rw [h] at hl'
      exact hdb l hl'
    · rw [h] at hl'
      rcases mem_saveListing hl' with h1 | h1
      · subst h1
        exact noDupClaims_push (hdb listing (mem_of_findById hfind)) hnc
      · exact hdb l h1
  | edit u i r =>
    have hl' : l ∈ (editRoute db u i r).2 := hl
    rcases editRoute_state_cases db u i r with h | ⟨listing, hfind, h⟩
    · rw [h] at hl'
      exact hdb l hl'
    · rw [h] at hl'
      rcases mem_saveListing hl' with h1 | h1
      · subst h1
        have hlist := hdb listing (mem_of_findById hfind)
        unfold noDupClaims at hlist ⊢
        rw [applyEdit_claims]
        exact hlist
      · exact hdb l h1
  | remove u i =>
    have hl' : l ∈ (deleteRoute db u i).2 := hl
    rcases deleteRoute_state_cases db u i with h | h
    · rw [h] at hl'
      exact hdb l hl'
    · rw [h] at hl'
      exact hdb l (List.eraseP_subset _ hl')

theorem stepOp_cap {db : DB} (hdb : ∀ l ∈ db, capOK l) (o : Op)
    (ho : keepsMaxClaims o) : ∀ l ∈ stepOp db o, capOK l := by
  intro l hl
  cases o with
  | create u r =>
    have hl' : l ∈ (createRoute db u r).2 := hl
    rcases createRoute_state_cases db u r with h | h
    · rw [h] at hl'
      exact hdb l hl'
    · rw [h] at hl'
      rcases List.mem_append.1 hl' with h1 | h1
      · exact hdb l h1
      · rw [List.mem_singleton] at h1
        subst h1
        unfold capOK newListing
        exact Nat.zero_le _
  | claim u now i =>
    have hl' : l ∈ (claimRoute db u now i).2 := hl
    rcases claimRoute_state_cases db u now i with h | ⟨listing, hfind, hlen, hnc, h⟩
    · rw [h] at hl'
      exact hdb l hl'
    · rw [h] at hl'
      rcases mem_saveListing hl' with h1 | h1
      · subst h1
        exact capOK_push hlen
      · exact hdb l h1
  | edit u i r =>
    have hl' : l ∈ (editRoute db u i r).2 := hl
    rcases editRoute_state_cases db u i r with h | ⟨listing, hfind, h⟩
    · rw [h] at hl'
      exact hdb l hl'
    · rw [h] at hl'
      rcases mem_saveListing hl' with h1 | h1
      · subst h1
        have hlist := hdb listing (mem_of_findById hfind)
        have hnone : r.maxClaims = none := ho
        unfold capOK at hlist ⊢
        rw [applyEdit_claims, applyEdit_maxClaims_of_none _ _ hnone]
        exact hlist
      · exact hdb l h1
  | remove u i =>
    have hl' : l ∈ (deleteRoute db u i).2 := hl
    rcases deleteRoute_state_cases db u i with h | h
    · rw [h] at hl'
      exact hdb l hl'
    · rw [h] at hl'
      exact hdb l (List.eraseP_subset _ hl')

/-- C1 (counterexample): in the maxClaims = 1 scenario the claim as stated
fails: it is false that receiver A's first attempt is allowed with
claims = [A], A's second attempt rejects with duplicate, and B's attempt
rejects with full — the second attempt in fact rejects with full, because
the fullness check precedes the duplicate check. -/
theorem C1_counterexample :
    ¬ ((claimRoute [L1] userA 50 1).1 = ClaimResult.allowed L1A ∧
       (claimRoute [L1] userA 50 1).2 = [L1A] ∧
       (claimRoute [L1A] userA 50 1).1 = ClaimResult.duplicate ∧
       (claimRoute [L1A] userB 50 1).1 = ClaimResult.full) := by
  decide

/-- C1 (amended): for a listing with maxClaims = 1 and a future expiry,
receiver A's first attempt is allowed and the stored claim list becomes
[A]; A's second attempt is rejected with reason full (the fullness check
runs before the duplicate check), and receiver B's attempt is likewise
rejected with reason full. -/
theorem C1_scenario_amended :
    (claimRoute [L1] userA 50 1).1 = ClaimResult.allowed L1A ∧
    (claimRoute [L1] userA 50 1).2 = [L1A] ∧
    L1A.claims = [⟨20, "Alice"⟩] ∧
    (claimRoute [L1A] userA 50 1).1 = ClaimResult.full ∧
    (claimRoute [L1A] userB 50 1).1 = ClaimResult.full := by
  decide

/-- C2 (counterexample): the invariant claims.length ≤ maxClaims is not
preserved by every operation sequence: creating a two-slot listing, letting
receivers A and B claim it, then editing maxClaims down to 1 yields a store
whose single listing has two claims but maxClaims 1. -/
theorem C2_counterexample :
    applyOps [] opsLowered = [{ L2AB with maxClaims := 1 }] ∧
    ¬ capOK { L2AB with maxClaims := 1 } := by
  decide

/-- C2 (amended): starting from any store whose listings all satisfy
claims.length ≤ maxClaims, the invariant is preserved by every sequence of
create, claim and delete operations and of edits that do not supply a new
maxClaims value; an edit that lowers maxClaims below the current number of
claims violates it. -/
theorem C2_claims_bounded (db : DB) (hdb : ∀ l ∈ db, capOK l)
    (ops : List Op) (hops : ∀ o ∈ ops, keepsMaxClaims o) :
    ∀ l ∈ applyOps db ops, capOK l := by
  induction ops generalizing db with
  | nil => exact hdb
  | cons o rest ih =>
    exact ih (stepOp db o)
      (stepOp_cap hdb o (hops o (List.mem_cons_self o rest)))
      (fun o' ho' => hops o' (List.mem_cons_of_mem o ho'))

/-- C2 (witness): the bound holds concretely after creating a two-slot
listing and letting receivers A and B claim it. -/
theorem C2_witness : capOK L2AB :=
  C2_claims_bounded [] (by decide) opsAB (by decide) L2AB (by decide)

/-- C5: starting from any store whose listings have no duplicated receiver
in their claim lists, no sequence of operations can produce a listing in
which a receiver identity appears twice: claims are created empty and every
successful append is preceded by the duplicate check. -/
theorem C5_no_duplicate_claims (db : DB) (hdb : ∀ l ∈ db, noDupClaims l)
    (ops : List Op) : ∀ l ∈ applyOps db ops, noDupClaims l := by
  induction ops generalizing db with
  | nil => exact hdb
  | cons o rest ih => exact ih (stepOp db o) (stepOp_noDup hdb o)

/-- C5 (witness): concretely, after creating a two-slot listing and letting
receivers A and B claim it, the claim list holds two distinct receivers. -/
theorem C5_witness : noDupClaims L2AB :=
  C5_no_duplicate_claims [] (by decide) opsAB L2AB (by decide)

/-- C3 (counterexample): the boundary case fails: on a listing whose
expiryTime is 100, a receiver's claim attempt at current time exactly 100
is allowed rather than rejected with reason expired, because the route
only rejects when expiryTime is strictly before the current time. -/
theorem C3_counterexample :
    (100 : Int) ≥ L1.expiryTime ∧
    (claimRoute [L1] userA 100 1).1 = ClaimResult.allowed L1A ∧
    (claimRoute [L1] userA 100 1).1 ≠ ClaimResult.expired := by
  decide

/-- C3 (amended): for every listing and requesting receiver, a claim
attempt is rejected with reason expired exactly when the current time is
strictly greater than the listing's expiryTime; at a current time equal to
expiryTime the expired rejection does not fire. -/
theorem C3_expired_strict (db : DB) (u : User) (now : Int) (i : Nat)
    (listing : FoodListing) (hrole : u.role = Role.Receiver)
    (hfind : findById db i = some listing) :
    ((claimRoute db u now i).1 = ClaimResult.expired ↔
      listing.expiryTime < now) ∧
    (listing.expiryTime < now →
      claimRoute db u now i = (ClaimResult.expired, db)) := by
  have h1 : ¬ u.role ≠ Role.Receiver := by simp [hrole]
  refine ⟨⟨?_, ?_⟩, ?_⟩
  · intro hres
    by_contra hnot
    simp only [claimRoute, if_neg h1, hfind, if_neg hnot] at hres
    by_cases h3 : listing.claims.length ≥ listing.maxClaims
    · rw [if_pos h3] at hres
      exact ClaimResult.noConfusion hres
    · rw [if_neg h3] at hres
      by_cases h4 : alreadyClaimed listing u.id = true
      · rw [if_pos h4] at hres
        exact ClaimResult.noConfusion hres
      · rw [if_neg h4] at hres
        exact ClaimResult.noConfusion hres
  · intro hexp
    simp only [claimRoute, if_neg h1, hfind, if_pos hexp]
  · intro hexp
    simp only [claimRoute, if_neg h1, hfind, if_pos hexp]

/-- C3 (witness): on the one-slot listing expiring at 100, a claim at
time 200 is rejected with reason expired and the store is untouched. -/
theorem C3_witness :
    ((claimRoute [L1] userA 200 1).1 = ClaimResult.expired ↔
      L1.expiryTime < 200) ∧
    claimRoute [L1] userA 200 1 = (ClaimResult.expired, [L1]) :=
  ⟨(C3_expired_strict [L1] userA 200 1 L1 rfl (by decide)).1,
   (C3_expired_strict [L1] userA 200 1 L1 rfl (by decide)).2 (by decide)⟩

/-- C4: the rejection checks run in the fixed order expired, full,
duplicate: a claim attempt on a listing whose expiryTime is in the past is
rejected with reason expired whatever the claim count, and an attempt on a
non-expired listing with claims.length ≥ maxClaims is rejected with reason
full whatever the duplicate status. -/
theorem C4_fixed_order (db : DB) (u : User) (now : Int) (i : Nat)
    (listing : FoodListing) (hrole : u.role = Role.Receiver)
    (hfind : findById db i = some listing) :
    (listing.expiryTime < now →
      claimRoute db u now i = (ClaimResult.expired, db)) ∧
    (¬ listing.expiryTime < now →
      listing.claims.length ≥ listing.maxClaims →
      claimRoute db u now i = (ClaimResult.full, db)) := by
  have h1 : ¬ u.role ≠ Role.Receiver := by simp [hrole]
  constructor
  · intro hexp
    simp only [claimRoute, if_neg h1, hfind, if_pos hexp]
  · intro hexp hfull
    simp only [claimRoute, if_neg h1, hfind, if_neg hexp, if_pos hfull]

/-- C4 (witness): the expired listing with a free slot is rejected expired;
the full non-expired listing is rejected full for receiver B, who is not
among its claimants. -/
theorem C4_witness :
    claimRoute [L1] userA 200 1 = (ClaimResult.expired, [L1]) ∧
    claimRoute [L1A] userB 50 1 = (ClaimResult.full, [L1A]) :=
  ⟨(C4_fixed_order [L1] userA 200 1 L1 rfl (by decide)).1 (by decide),
   (C4_fixed_order [L1A] userB 50 1 L1A rfl (by decide)).2 (by decide) (by decide)⟩

/-- C6: the available-listings query returns exactly the stored listings
with expiryTime strictly after now and strictly fewer claims than
maxClaims, sorted by ascending expiry time; in particular a listing whose
claim list is full is excluded even when its expiry is in the future. -/
theorem C6_available_query (db : DB) (now : Int) :
    (∀ l, l ∈ availableListings db now ↔
      (l ∈ db ∧ now < l.expiryTime ∧ l.claims.length < l.maxClaims)) ∧
    List.Sorted expiryLE (availableListings db now) ∧
    (∀ l ∈ db, l.claims.length = l.maxClaims →
      l ∉ availableListings db now) := by
  have hmem : ∀ l, l ∈ availableListings db now ↔
      (l ∈ db ∧ now < l.expiryTime ∧ l.claims.length < l.maxClaims) := by
    intro l
    unfold availableListings
    rw [(List.perm_insertionSort expiryLE _).mem_iff, List.mem_filter]
    simp [isAvailable, and_assoc]
  refine ⟨hmem, List.sorted_insertionSort expiryLE _, ?_⟩
  intro l _ hfull hcontra
  have hlt := ((hmem l).1 hcontra).2.2
  omega

/-- C7: an authenticated non-Receiver's claim attempt on any listing id,
existent or not, yields the authorization rejection and leaves the store
untouched: the role gate precedes the listing lookup and the
expired/full/duplicate checks. -/
theorem C7_nonreceiver_gate (db : DB) (u : User) (now : Int) (i : Nat)
    (h : u.role ≠ Role.Receiver) :
    claimRoute db u now i = (ClaimResult.notReceiver, db) := by
  simp only [claimRoute, if_pos h]

/-- C7 (witness): a donor's claim attempt on a nonexistent listing id in
an empty store is rejected as non-receiver, not as not-found. -/
theorem C7_witness :
    claimRoute [] donorD 0 99 = (ClaimResult.notReceiver, []) :=
  C7_nonreceiver_gate [] donorD 0 99 (by decide)

/-- C8: deletion of an existing listing succeeds exactly when the requester
is the owning donor or has role Admin; any other requester receives the
authorization rejection and the store is unchanged; on success the listing
with that id is erased. -/
theorem C8_delete_auth (db : DB) (u : User) (i : Nat) (listing : FoodListing)
    (hfind : findById db i = some listing) :
    ((deleteRoute db u i).1 = DeleteResult.removed ↔
      (listing.donor = u.id ∨ u.role = Role.Admin)) ∧
    (¬ (listing.donor = u.id ∨ u.role = Role.Admin) →
      deleteRoute db u i = (DeleteResult.notAuthorized, db)) ∧
    ((listing.donor = u.id ∨ u.role = Role.Admin) →
      (deleteRoute db u i).2 = List.eraseP (fun l => l.id == i) db) := by
  by_cases hc : listing.donor ≠ u.id ∧ u.role ≠ Role.Admin
  · have hna : ¬ (listing.donor = u.id ∨ u.role = Role.Admin) := by tauto
    have hres : deleteRoute db u i = (DeleteResult.notAuthorized, db) := by
      simp only [deleteRoute, hfind, if_pos hc]
    refine ⟨?_, fun _ => hres, fun hor => absurd hor hna⟩
    rw [hres]
    exact ⟨fun h => DeleteResult.noConfusion h, fun hor => absurd hor hna⟩
  · have hor : listing.donor = u.id ∨ u.role = Role.Admin := by tauto
    have hres : deleteRoute db u i =
        (DeleteResult.removed, List.eraseP (fun l => l.id == i) db) := by
      simp only [deleteRoute, hfind, if_neg hc]
    refine ⟨?_, fun hna => absurd hor hna, fun _ => by rw [hres]⟩
    rw [hres]
    exact ⟨fun _ => hor, fun _ => rfl⟩

/-- C8 (witness): the admin, who owns nothing, may delete the listing;
receiver B, neither owner nor admin, is rejected and the store is kept. -/
theorem C8_witness :
    ((deleteRoute [L1] adminU 1).1 = DeleteResult.removed ↔
      (L1.donor = adminU.id ∨ adminU.role = Role.Admin)) ∧
    deleteRoute [L1] userB 1 = (DeleteResult.notAuthorized, [L1]) :=
  ⟨(C8_delete_auth [L1] adminU 1 L1 (by decide)).1,
   (C8_delete_auth [L1] userB 1 L1 (by decide)).2.1 (by decide)⟩

/-- C9: the image transformation rewrites the image reference to an
absolute address exactly when it starts with the local uploads path, passes
every other reference through unchanged, and touches no other field of the
listing. -/
theorem C9_image_rewrite (l : FoodListing) :
    ((transformImageUrl l).imageUrl =
      if l.imageUrl.startsWith "/uploads/" = true then serverOrigin ++ l.imageUrl
      else l.imageUrl) ∧
    (transformImageUrl l).id = l.id ∧
    (transformImageUrl l).donor = l.donor ∧
    (transformImageUrl l).donorName = l.donorName ∧
    (transformImageUrl l).category = l.category ∧
    (transformImageUrl l).description = l.description ∧
    (transformImageUrl l).quantity = l.quantity ∧
    (transformImageUrl l).location = l.location ∧
    (transformImageUrl l).mfgTime = l.mfgTime ∧
    (transformImageUrl l).expiryTime = l.expiryTime ∧
    (transformImageUrl l).maxClaims = l.maxClaims ∧
    (transformImageUrl l).claims = l.claims := by
  unfold transformImageUrl
  by_cases hc : (l.imageUrl != "" && l.imageUrl.startsWith "/uploads/") = true
  · rw [if_pos hc]
    have hs : l.imageUrl.startsWith "/uploads/" = true := by
      rw [Bool.and_eq_true] at hc
      exact hc.2
    exact ⟨by rw [if_pos hs], rfl, rfl, rfl, rfl, rfl, rfl, rfl, rfl, rfl,
      rfl, rfl⟩
  · rw [if_neg hc]
    by_cases hs : l.imageUrl.startsWith "/uploads/" = true
    · have hne : (l.imageUrl != "") = false := by
        cases hb : (l.imageUrl != "") with
        | false => rfl
        | true => exact absurd (by rw [hb, hs]; rfl) hc
      have he : l.imageUrl = "" := by simpa using hne
      rw [he] at hs
      exact absurd hs (by decide)
    · exact ⟨by rw [if_neg hs], rfl, rfl, rfl, rfl, rfl, rfl, rfl, rfl, rfl,
        rfl, rfl⟩

/-- C10: every rejected claim attempt, whatever the reason, leaves the
store exactly as it was; the store changes only on an allowed claim, and
then precisely by saving the found listing with the requester's claim entry
appended. -/
theorem C10_reject_leaves_store (db : DB) (u : User) (now : Int) (i : Nat) :
    ((∀ upd, (claimRoute db u now i).1 ≠ ClaimResult.allowed upd) →
      (claimRoute db u now i).2 = db) ∧
    (∀ upd, (claimRoute db u now i).1 = ClaimResult.allowed upd →
      (claimRoute db u now i).2 = saveListing db upd ∧
      ∃ listing, findById db i = some listing ∧
        upd = { listing with claims := listing.claims ++ [⟨u.id, u.name⟩] }) := by
  by_cases h1 : u.role ≠ Role.Receiver
  · have hr : claimRoute db u now i = (ClaimResult.notReceiver, db) := by
      simp only [claimRoute, if_pos h1]
    rw [hr]
    exact ⟨fun _ => rfl, fun upd h => ClaimResult.noConfusion h⟩
  · cases hf : findById db i with
    | none =>
      have hr : claimRoute db u now i = (ClaimResult.notFound, db) := by
        simp only [claimRoute, if_neg h1, hf]
      rw [hr]
      exact ⟨fun _ => rfl, fun upd h => ClaimResult.noConfusion h⟩
    | some listing =>
      by_cases h2 : listing.expiryTime < now
      · have hr : claimRoute db u now i = (ClaimResult.expired, db) := by
          simp only [claimRoute, if_neg h1, hf, if_pos h2]
        rw [hr]
        exact ⟨fun _ => rfl, fun upd h => ClaimResult.noConfusion h⟩
      · by_cases h3 : listing.claims.length ≥ listing.maxClaims
        · have hr : claimRoute db u now i = (ClaimResult.full, db) := by
            simp only [claimRoute, if_neg h1, hf, if_neg h2, if_pos h3]
          rw [hr]
          exact ⟨fun _ => rfl, fun upd h => ClaimResult.noConfusion h⟩
        · by_cases h4 : alreadyClaimed listing u.id = true
          · have hr : claimRoute db u now i = (ClaimResult.duplicate, db) := by
              simp only [claimRoute, if_neg h1, hf, if_neg h2, if_neg h3,
                if_pos h4]
            rw [hr]
            exact ⟨fun _ => rfl, fun upd h => ClaimResult.noConfusion h⟩
          · have hr : claimRoute db u now i =
                (ClaimResult.allowed
                  { listing with claims := listing.claims ++ [⟨u.id, u.name⟩] },
                 saveListing db
                  { listing with claims := listing.claims ++ [⟨u.id, u.name⟩] }) := by
              simp only [claimRoute, if_neg h1, hf, if_neg h2, if_neg h3,
                if_neg h4]
            rw [hr]
            constructor
            · intro hno
              exact ((hno _) rfl).elim
            · intro upd h
              have h' : ClaimResult.allowed
                  { listing with claims := listing.claims ++ [⟨u.id, u.name⟩] } =
                  ClaimResult.allowed upd := h
              injection h' with he
              subst he
              exact ⟨rfl, listing, rfl, rfl⟩

/-- C10 (witness): the expired attempt at time 200 leaves the singleton
store unchanged; the allowed attempt at time 50 saves the listing with
receiver A's entry appended. -/
theorem C10_witness :
    (claimRoute [L1] userA 200 1).2 = [L1] ∧
    (claimRoute [L1] userA 50 1).2 = saveListing [L1] L1A :=
  ⟨(C10_reject_leaves_store [L1] userA 200 1).1
      (fun upd h => by
        have hres : (claimRoute [L1] userA 200 1).1 = ClaimResult.expired := by
          decide
        rw [hres] at h
        exact ClaimResult.noConfusion h),
   ((C10_reject_leaves_store [L1] userA 50 1).2 L1A (by decide)).1⟩
